import Mathlib

/-!
Shallow embedding of the `CustomSVM` class from
`Implementiation_of_SVMs_and_Kernel_methods.ipynb`.

Numbers are modelled as rationals (`ℚ`).  numpy arrays become `List ℚ`
(vectors) and `List (List ℚ)` (matrices); `xs.getD i 0` stands for `xs[i]`.
Python exceptions become `Except SVMError`.  The two global-state effects of
the source are injected explicitly:

* `ex : ℚ → ℚ` stands for the floating-point `np.exp` used by the rbf kernel
  (every theorem below holds for an arbitrary `ex`);
* `sel : ℕ → ℕ → ℕ` stands for the random partner selection
  `while j == i: j = np.random.randint(0, n_samples)` — `sel p i` is the
  index the retry loop finally returns in pass `p` for sample `i`
  (the source draws until `j ≠ i`; theorems that need it assume
  `sel p i ≠ i`).
-/

namespace CustomSVM

/-- Dot product of two vectors, `a @ b` on equal-length numpy vectors. -/
def dot (a b : List ℚ) : ℚ := (List.zipWith (· * ·) a b).sum

/-- Squared euclidean norm of one row, `np.sum(x**2)`. -/
def sqnorm (a : List ℚ) : ℚ := dot a a

/-- The failure conditions observable from the embedded code.
`unsupportedKernel` embeds the explicit
`raise ValueError("Unknown kernel type")` in `_kernel`;
`noneAttribute` embeds the `AttributeError`/`TypeError` Python raises when a
still-`None` model field (`support_vectors`, `alpha`, `y_train`) is used in
array arithmetic.  `modelNotFitted` and `invalidTrainingData` are the
conditions named by the specification's error taxonomy; the source contains
no `raise` of either kind, so no embedded operation ever produces them —
they exist here so that statements about them can be expressed. -/
inductive SVMError where
  | unsupportedKernel
  | noneAttribute
  | modelNotFitted
  | invalidTrainingData
deriving DecidableEq, Repr

/-- Constructor parameters of `CustomSVM.__init__`, immutable afterwards. -/
structure SVMConfig where
  kernel : String
  C : ℚ
  gamma : ℚ
  degree : ℕ
  coef0 : ℚ
deriving DecidableEq, Repr

/-- The kernel matrix `CustomSVM._kernel(X1, X2)` where the second argument may still be the
`None` a fresh model holds in `self.support_vectors`.  The kernel-name
dispatch happens first, exactly as in the source: an unknown name raises
before the `None` is ever touched, while a supported branch fails on `None`
(`None.T` is an `AttributeError` for linear/poly, `None**2` a `TypeError`
for rbf; both are embedded as `noneAttribute`). -/
def kernelMatrixO (ex : ℚ → ℚ) (cfg : SVMConfig) (X1 : List (List ℚ))
    (X2opt : Option (List (List ℚ))) : Except SVMError (List (List ℚ)) :=
  if cfg.kernel = "linear" then
    match X2opt with
    | none => .error .noneAttribute
    | some X2 => .ok (X1.map fun r1 => X2.map fun r2 => dot r1 r2)
  else if cfg.kernel = "poly" then
    match X2opt with
    | none => .error .noneAttribute
    | some X2 =>
        .ok (X1.map fun r1 => X2.map fun r2 =>
          (cfg.gamma * dot r1 r2 + cfg.coef0) ^ cfg.degree)
  else if cfg.kernel = "rbf" then
    match X2opt with
    | none => .error .noneAttribute
    | some X2 =>
        .ok (X1.map fun r1 => X2.map fun r2 =>
          ex (-cfg.gamma * (sqnorm r1 + sqnorm r2 - 2 * dot r1 r2)))
  else .error .unsupportedKernel

/-- The kernel matrix `CustomSVM._kernel(X1, X2)` with both arguments present. -/
def kernelMatrix (ex : ℚ → ℚ) (cfg : SVMConfig) (X1 X2 : List (List ℚ)) :
    Except SVMError (List (List ℚ)) :=
  kernelMatrixO ex cfg X1 (some X2)

/-- The mutable instance state of a `CustomSVM` object.  Fields that
`__init__` sets to `None` are `Option`s. -/
structure SVMModel where
  cfg : SVMConfig
  alpha : Option (List ℚ)
  b : ℚ
  X_train : Option (List (List ℚ))
  y_train : Option (List ℚ)
  support_vectors : Option (List (List ℚ))
deriving DecidableEq, Repr

/-- Equality of embedded call results is decidable (needed to evaluate the
embedding at concrete inputs). -/
instance {ε α : Type} [DecidableEq ε] [DecidableEq α] :
    DecidableEq (Except ε α) := fun x y =>
  match x, y with
  | .error a, .error b =>
      if h : a = b then .isTrue (by rw [h])
      else .isFalse (by intro hh; cases hh; exact h rfl)
  | .ok a, .ok b =>
      if h : a = b then .isTrue (by rw [h])
      else .isFalse (by intro hh; cases hh; exact h rfl)
  | .error _, .ok _ => .isFalse (by intro hh; cases hh)
  | .ok _, .error _ => .isFalse (by intro hh; cases hh)

/-- The constructor's default hyperparameters
(`C=1.0, gamma=1.0, degree=3, coef0=1.0`) with a given kernel name. -/
def cfgWith (name : String) : SVMConfig :=
  { kernel := name, C := 1, gamma := 1, degree := 3, coef0 := 1 }

/-- A freshly constructed, unfit model, as left by `CustomSVM.__init__`. -/
def initModel (cfg : SVMConfig) : SVMModel :=
  { cfg := cfg, alpha := none, b := 0, X_train := none,
    y_train := none, support_vectors := none }

/-- The label conversion at the top of `fit`:
`y = y.copy(); y[y == 0] = -1`.  Only the value `0` is rewritten. -/
def convertLabels (y : List ℚ) : List ℚ :=
  y.map fun v => if v = 0 then -1 else v

/-- Clipping: `np.clip(x, lo, hi)` = `np.minimum(hi, np.maximum(lo, x))`. -/
def clip (x lo hi : ℚ) : ℚ := min hi (max lo x)

/-- The error `E_i = (self.alpha * y) @ K[:, i] + self.b - y[i]`:
the decision-function error of sample `i` under the current
multipliers/bias (`n` is the number of samples). -/
def errAt (n : ℕ) (K : List (List ℚ)) (y alpha : List ℚ) (b : ℚ)
    (i : ℕ) : ℚ :=
  ((List.range n).map fun k =>
    alpha.getD k 0 * y.getD k 0 * ((K.getD k []).getD i 0)).sum
    + b - y.getD i 0

/-- The KKT-violation test guarding the inner SMO work for sample `i`. -/
def kktViolated (C tol : ℚ) (y alpha : List ℚ) (Ei : ℚ) (i : ℕ) : Prop :=
  (y.getD i 0 * Ei < -tol ∧ alpha.getD i 0 < C) ∨
  (y.getD i 0 * Ei > tol ∧ alpha.getD i 0 > 0)

instance (C tol : ℚ) (y alpha : List ℚ) (Ei : ℚ) (i : ℕ) :
    Decidable (kktViolated C tol y alpha Ei i) := by
  unfold kktViolated; infer_instance

/-- The state the SMO loop mutates: the multiplier vector and the bias. -/
abbrev SMOState := List ℚ × ℚ

/-- The box bounds `L, H` for the new `alpha[j]`, as computed by the
`if y[i] != y[j]: ... else: ...` block of `fit`. -/
def boundsLH (C ai aj yi yj : ℚ) : ℚ × ℚ :=
  if yi ≠ yj then (max 0 (aj - ai), min C (C + aj - ai))
  else (max 0 (ai + aj - C), min C (ai + aj))

/-- One inner SMO update on the pair `(i, j)` (the body of `fit`'s inner
loop after the partner `j` has been drawn).  Returns the new state and
whether the pair was counted as a change (`num_changed += 1`).  Note the
source writes the clipped `alpha[j]` back *before* testing the 1e-5
threshold, so the small-change `continue` keeps the already-mutated
`alpha[j]`. -/
def smoInner (C : ℚ) (K : List (List ℚ)) (y : List ℚ) (s : SMOState)
    (Ei : ℚ) (i j : ℕ) : SMOState × Bool :=
  let alpha := s.1
  let b := s.2
  let n := alpha.length
  let Ej := errAt n K y alpha b j
  let ai := alpha.getD i 0
  let aj := alpha.getD j 0
  let yi := y.getD i 0
  let yj := y.getD j 0
  let L := (boundsLH C ai aj yi yj).1
  let H := (boundsLH C ai aj yi yj).2
  if L = H then (s, false)
  else
    let Kii := (K.getD i []).getD i 0
    let Kij := (K.getD i []).getD j 0
    let Kjj := (K.getD j []).getD j 0
    let eta := 2 * Kij - Kii - Kjj
    if 0 ≤ eta then (s, false)
    else
      let ajn := clip (aj - yj * (Ei - Ej) / eta) L H
      let alpha1 := alpha.set j ajn
      if |ajn - aj| < 1 / 100000 then ((alpha1, b), false)
      else
        let ain := ai + yi * yj * (aj - ajn)
        let alpha2 := alpha1.set i ain
        let b1 := b - Ei - yi * (ain - ai) * Kii - yj * (ajn - aj) * Kij
        let b2 := b - Ej - yi * (ain - ai) * Kij - yj * (ajn - aj) * Kjj
        let bn := if 0 < ain ∧ ain < C then b1
                  else if 0 < ajn ∧ ajn < C then b2
                  else (b1 + b2) / 2
        ((alpha2, bn), true)

/-- One outer pass of the SMO loop: `for i in range(n_samples)` with the
KKT test, partner selection `selp i`, and the inner update.  Returns the
final state together with `num_changed`. -/
def smoPass (C tol : ℚ) (K : List (List ℚ)) (y : List ℚ) (selp : ℕ → ℕ)
    (n : ℕ) (s : SMOState) : SMOState × ℕ :=
  (List.range n).foldl
    (fun acc i =>
      let st := acc.1
      let Ei := errAt n K y st.1 st.2 i
      if kktViolated C tol y st.1 Ei i then
        let r := smoInner C K y st Ei i (selp i)
        (r.1, if r.2 then acc.2 + 1 else acc.2)
      else acc)
    (s, 0)

/-- The outer SMO loop: `for _ in range(max_iter)` with the early
`if num_changed == 0: break`.  `p` is the index of the current pass
(used only to feed the injected selector). -/
def smoLoop (C tol : ℚ) (K : List (List ℚ)) (y : List ℚ)
    (sel : ℕ → ℕ → ℕ) (n : ℕ) : ℕ → ℕ → SMOState → SMOState
  | 0, _, s => s
  | fuel + 1, p, s =>
      let r := smoPass C tol K y (sel p) n s
      if r.2 = 0 then r.1 else smoLoop C tol K y sel n fuel (p + 1) r.1

/-- Number of passes `smoLoop` actually executes (same recursion). -/
def passCount (C tol : ℚ) (K : List (List ℚ)) (y : List ℚ)
    (sel : ℕ → ℕ → ℕ) (n : ℕ) : ℕ → ℕ → SMOState → ℕ
  | 0, _, _ => 0
  | fuel + 1, p, s =>
      let r := smoPass C tol K y (sel p) n s
      if r.2 = 0 then 1 else passCount C tol K y sel n fuel (p + 1) r.1 + 1

/-- Support-vector indices `sv_indices = self.alpha > 1e-5`: the samples kept as
support vectors after the optimization loop. -/
def svIndices (n : ℕ) (a : List ℚ) : List ℕ :=
  (List.range n).filter fun k => 1 / 100000 < a.getD k 0

/-- The state `(alpha, b)` the SMO loop of `fit` finishes in, starting from
zero multipliers and zero bias. -/
def fitState (cfg : SVMConfig) (sel : ℕ → ℕ → ℕ) (K : List (List ℚ))
    (y2 : List ℚ) (n max_iter : ℕ) (tol : ℚ) : SMOState :=
  smoLoop cfg.C tol K y2 sel n max_iter 0 (List.replicate n 0, 0)

/-- Training, `CustomSVM.fit(X, y, max_iter, tol)`.  Converts the labels, builds the
Gram matrix once, runs the SMO loop from zero multipliers and zero bias,
and keeps only the samples whose multiplier exceeds 1e-5 in
`support_vectors` / `alpha` / `y_train`.  `X_train` is assigned the full
feature matrix before the loop and is never filtered afterwards, exactly as
in the source. -/
def fit (ex : ℚ → ℚ) (sel : ℕ → ℕ → ℕ) (m : SVMModel)
    (X : List (List ℚ)) (y : List ℚ) (max_iter : ℕ) (tol : ℚ) :
    Except SVMError SVMModel :=
  let y2 := convertLabels y
  let n := X.length
  match kernelMatrix ex m.cfg X X with
  | .error e => .error e
  | .ok K =>
      let sF := fitState m.cfg sel K y2 n max_iter tol
      let idx := svIndices n sF.1
      .ok { cfg := m.cfg
            alpha := some (idx.map fun k => sF.1.getD k 0)
            b := sF.2
            X_train := some X
            y_train := some (idx.map fun k => y2.getD k 0)
            support_vectors := some (idx.map fun k => X.getD k []) }

/-- Inference, `CustomSVM.decision_function(X)`.  The kernel matrix against
`self.support_vectors` is computed first (this is where an unfit model
fails); then `(self.alpha * self.y_train) @ K.T + self.b`. -/
def decision_function (ex : ℚ → ℚ) (m : SVMModel) (X : List (List ℚ)) :
    Except SVMError (List ℚ) :=
  match kernelMatrixO ex m.cfg X m.support_vectors with
  | .error e => .error e
  | .ok K =>
      match m.alpha, m.y_train with
      | some a, some yt =>
          .ok (K.map fun row => dot (List.zipWith (· * ·) a yt) row + m.b)
      | _, _ => .error .noneAttribute

/-- Sign of one entry, `np.sign`. -/
def sign (x : ℚ) : ℚ := if 0 < x then 1 else if x < 0 then -1 else 0

/-- Prediction, `CustomSVM.predict(X) = np.sign(self.decision_function(X))`. -/
def predict (ex : ℚ → ℚ) (m : SVMModel) (X : List (List ℚ)) :
    Except SVMError (List ℚ) :=
  match decision_function ex m X with
  | .error e => .error e
  | .ok d => .ok (d.map sign)

/-!
A minimal store semantics for the aliasing behaviour at the top of `fit`
(`y = y.copy(); y[y == 0] = -1`): numpy arrays live in a heap and are
passed by reference, so an in-place assignment on an uncopied argument
would be visible to the caller.
-/

/-- A heap of numpy 1-D arrays; an array reference is an index into it. -/
abbrev Heap := List (List ℚ)

/-- Read the array behind a reference. -/
def readArr (h : Heap) (r : ℕ) : List ℚ := h.getD r []

/-- Allocate a fresh array holding `v`; returns the new heap and the new
reference. -/
def allocArr (h : Heap) (v : List ℚ) : Heap × ℕ := (h ++ [v], h.length)

/-- Overwrite the array behind a reference in place. -/
def writeArr (h : Heap) (r : ℕ) (v : List ℚ) : Heap := h.set r v

/-- The first two statements of `fit`, heap-explicitly:
`y = y.copy()` allocates a fresh array with the same contents, and
`y[y == 0] = -1` mutates that fresh array in place.  Returns the heap after
both statements and the reference the local name `y` now holds. -/
def fitLabelIntro (h : Heap) (yRef : ℕ) : Heap × ℕ :=
  let c := allocArr h (readArr h yRef)
  (writeArr c.1 c.2 (convertLabels (readArr c.1 c.2)), c.2)

/-! ### Helper lemmas -/

theorem getD_set_self {α : Type} (l : List α) (n : ℕ) (v d : α) :
    (l.set n v).getD n d = if n < l.length then v else d := by
  rw [List.getD_eq_getElem?_getD]
  rcases Nat.lt_or_ge n l.length with h | h
  · simp [List.getElem?_set_self (by simpa using h), h]
  · rw [List.getElem?_eq_none (by simpa using h)]
    simp [Nat.not_lt.mpr h]

theorem getD_set_ne {α : Type} (l : List α) (n m : ℕ) (v d : α) (h : m ≠ n) :
    (l.set n v).getD m d = l.getD m d := by
  simp [List.getD_eq_getElem?_getD, List.getElem?_set_ne (Ne.symm h)]

theorem dot_comm (a b : List ℚ) : dot a b = dot b a := by
  unfold dot
  rw [List.zipWith_comm_of_comm]
  exact mul_comm

theorem clip_le (x lo hi : ℚ) : clip x lo hi ≤ hi := min_le_left _ _

theorem le_clip (x lo hi : ℚ) (h : lo ≤ hi) : lo ≤ clip x lo hi :=
  le_min h (le_trans (le_max_left _ _) le_rfl)

theorem boundsLH_left_nonneg (C ai aj yi yj : ℚ) :
    0 ≤ (boundsLH C ai aj yi yj).1 := by
  unfold boundsLH; split_ifs <;> exact le_max_left _ _

theorem boundsLH_right_le (C ai aj yi yj : ℚ) :
    (boundsLH C ai aj yi yj).2 ≤ C := by
  unfold boundsLH; split_ifs <;> exact min_le_left _ _

theorem boundsLH_le (C ai aj yi yj : ℚ) (hC : 0 ≤ C)
    (hai : 0 ≤ ai ∧ ai ≤ C) (haj : 0 ≤ aj ∧ aj ≤ C) :
    (boundsLH C ai aj yi yj).1 ≤ (boundsLH C ai aj yi yj).2 := by
  unfold boundsLH
  split_ifs <;>
    refine max_le (le_min hC (by linarith [hai.1, hai.2, haj.1, haj.2]))
      (le_min (by linarith [hai.1, hai.2, haj.1, haj.2])
        (by linarith [hai.1, hai.2, haj.1, haj.2]))

theorem ain_bounds (C ai aj yi yj ajn : ℚ)
    (hyi : yi = 1 ∨ yi = -1) (hyj : yj = 1 ∨ yj = -1)
    (hlo : (boundsLH C ai aj yi yj).1 ≤ ajn)
    (hhi : ajn ≤ (boundsLH C ai aj yi yj).2) :
    0 ≤ ai + yi * yj * (aj - ajn) ∧ ai + yi * yj * (aj - ajn) ≤ C := by
  rcases hyi with h1 | h1 <;> rcases hyj with h2 | h2 <;>
      subst h1 <;> subst h2 <;> norm_num [boundsLH] at hlo hhi ⊢ <;>
      exact ⟨by linarith [hlo.1, hlo.2, hhi.1, hhi.2],
        by linarith [hlo.1, hlo.2, hhi.1, hhi.2]⟩

theorem smoInner_alpha_mem (C : ℚ) (K : List (List ℚ)) (y : List ℚ)
    (s : SMOState) (Ei : ℚ) (i j : ℕ) (hC : 0 ≤ C)
    (hyi : y.getD i 0 = 1 ∨ y.getD i 0 = -1)
    (hyj : y.getD j 0 = 1 ∨ y.getD j 0 = -1)
    (hs : ∀ k, 0 ≤ s.1.getD k 0 ∧ s.1.getD k 0 ≤ C) :
    ∀ k, 0 ≤ (smoInner C K y s Ei i j).1.1.getD k 0 ∧
      (smoInner C K y s Ei i j).1.1.getD k 0 ≤ C := by
  intro k
  have hai := hs i
  have haj := hs j
  have hLH := boundsLH_le C (s.1.getD i 0) (s.1.getD j 0)
    (y.getD i 0) (y.getD j 0) hC hai haj
  have hL0 := boundsLH_left_nonneg C (s.1.getD i 0) (s.1.getD j 0)
    (y.getD i 0) (y.getD j 0)
  have hHC := boundsLH_right_le C (s.1.getD i 0) (s.1.getD j 0)
    (y.getD i 0) (y.getD j 0)
  simp only [smoInner]
  split_ifs with h1 h2 h3 <;> dsimp only
  · exact hs k
  · exact hs k
  · -- small-change branch: alpha[j] keeps the freshly clipped value
    rcases eq_or_ne k j with hk | hkj
    · rw [hk, getD_set_self]
      split_ifs with hlen
      · exact ⟨le_trans hL0 (le_clip _ _ _ hLH), le_trans (clip_le _ _ _) hHC⟩
      · exact ⟨le_refl 0, hC⟩
    · rw [getD_set_ne _ _ _ _ _ hkj]; exact hs k
  all_goals
    -- counted branch (three subgoals, one per bias case — the multiplier
    -- vector is the same in each)
    rcases eq_or_ne k i with hk | hki
  case _ =>
    rw [hk, getD_set_self]
    split_ifs with hlen
    · exact ain_bounds C (s.1.getD i 0) (s.1.getD j 0) (y.getD i 0)
        (y.getD j 0) _ hyi hyj (le_clip _ _ _ hLH) (clip_le _ _ _)
    · exact ⟨le_refl 0, hC⟩
  all_goals
    first
    | (rw [hk, getD_set_self]
       split_ifs with hlen
       · exact ain_bounds C (s.1.getD i 0) (s.1.getD j 0) (y.getD i 0)
           (y.getD j 0) _ hyi hyj (le_clip _ _ _ hLH) (clip_le _ _ _)
       · exact ⟨le_refl 0, hC⟩)
    | (rw [getD_set_ne _ _ _ _ _ hki]
       rcases eq_or_ne k j with hk2 | hkj
       · rw [hk2, getD_set_self]
         split_ifs with hlen
         · exact ⟨le_trans hL0 (le_clip _ _ _ hLH),
             le_trans (clip_le _ _ _) hHC⟩
         · exact ⟨le_refl 0, hC⟩
       · rw [getD_set_ne _ _ _ _ _ hkj]; exact hs k)

theorem smoPass_alpha_mem (C tol : ℚ) (K : List (List ℚ)) (y : List ℚ)
    (selp : ℕ → ℕ) (n : ℕ) (s : SMOState) (hC : 0 ≤ C)
    (hsel : ∀ i, i < n → selp i < n)
    (hy : ∀ k, k < n → y.getD k 0 = 1 ∨ y.getD k 0 = -1)
    (hs : ∀ k, 0 ≤ s.1.getD k 0 ∧ s.1.getD k 0 ≤ C) :
    ∀ k, 0 ≤ (smoPass C tol K y selp n s).1.1.getD k 0 ∧
      (smoPass C tol K y selp n s).1.1.getD k 0 ≤ C := by
  unfold smoPass
  refine List.foldlRecOn (List.range n) _ (s, 0)
    (motive := fun acc => ∀ k, 0 ≤ acc.1.1.getD k 0 ∧ acc.1.1.getD k 0 ≤ C)
    hs ?_
  intro acc hacc i hi
  have hin : i < n := List.mem_range.mp hi
  by_cases hv : kktViolated C tol y acc.1.1 (errAt n K y acc.1.1 acc.1.2 i) i
  · rw [if_pos hv]
    dsimp only
    exact smoInner_alpha_mem C K y acc.1 _ i (selp i) hC (hy i hin)
      (hy (selp i) (hsel i hin)) hacc
  · rw [if_neg hv]
    exact hacc

theorem smoLoop_alpha_mem (C tol : ℚ) (K : List (List ℚ)) (y : List ℚ)
    (sel : ℕ → ℕ → ℕ) (n : ℕ) (fuel p : ℕ) (s : SMOState) (hC : 0 ≤ C)
    (hsel : ∀ q i, i < n → sel q i < n)
    (hy : ∀ k, k < n → y.getD k 0 = 1 ∨ y.getD k 0 = -1)
    (hs : ∀ k, 0 ≤ s.1.getD k 0 ∧ s.1.getD k 0 ≤ C) :
    ∀ k, 0 ≤ (smoLoop C tol K y sel n fuel p s).1.getD k 0 ∧
      (smoLoop C tol K y sel n fuel p s).1.getD k 0 ≤ C := by
  induction fuel generalizing p s with
  | zero => exact hs
  | succ m ih =>
      rw [smoLoop]
      have hpass := smoPass_alpha_mem C tol K y (sel p) n s hC (hsel p) hy hs
      split_ifs with h0
      · exact hpass
      · exact ih (p + 1) _ hpass

theorem getD_replicate (n k : ℕ) (v d : ℚ) :
    (List.replicate n v).getD k d = if k < n then v else d := by
  rw [List.getD_eq_getElem?_getD, List.getElem?_replicate]
  split_ifs <;> simp

theorem map_map_getD_symm (f : List ℚ → List ℚ → ℚ)
    (hf : ∀ a b, f a b = f b a) (X : List (List ℚ)) (i j : ℕ) :
    ((X.map fun r1 => X.map fun r2 => f r1 r2).getD i []).getD j 0 =
    ((X.map fun r1 => X.map fun r2 => f r1 r2).getD j []).getD i 0 := by
  rcases hXi : X[i]? with _ | xi <;> rcases hXj : X[j]? with _ | xj
  · simp [List.getD_eq_getElem?_getD, List.getElem?_map, hXi, hXj]
  · simp [List.getD_eq_getElem?_getD, List.getElem?_map, hXi, hXj]
  · simp [List.getD_eq_getElem?_getD, List.getElem?_map, hXi, hXj]
  · simp [List.getD_eq_getElem?_getD, List.getElem?_map, hXi, hXj, hf xi xj]

theorem kernelMatrix_error_eq (ex : ℚ → ℚ) (cfg : SVMConfig)
    (X1 X2 : List (List ℚ)) (e : SVMError)
    (h : kernelMatrix ex cfg X1 X2 = .error e) : e = .unsupportedKernel := by
  unfold kernelMatrix kernelMatrixO at h
  split_ifs at h <;> cases h <;> rfl

theorem fit_ok_elim (ex : ℚ → ℚ) (sel : ℕ → ℕ → ℕ) (m : SVMModel)
    (X : List (List ℚ)) (y : List ℚ) (max_iter : ℕ) (tol : ℚ)
    (K : List (List ℚ)) (hK : kernelMatrix ex m.cfg X X = .ok K) :
    fit ex sel m X y max_iter tol = Except.ok
      { cfg := m.cfg
        alpha := some ((svIndices X.length
            (fitState m.cfg sel K (convertLabels y) X.length max_iter tol).1).map
          fun k =>
            (fitState m.cfg sel K (convertLabels y) X.length max_iter tol).1.getD k 0)
        b := (fitState m.cfg sel K (convertLabels y) X.length max_iter tol).2
        X_train := some X
        y_train := some ((svIndices X.length
            (fitState m.cfg sel K (convertLabels y) X.length max_iter tol).1).map
          fun k => (convertLabels y).getD k 0)
        support_vectors := some ((svIndices X.length
            (fitState m.cfg sel K (convertLabels y) X.length max_iter tol).1).map
          fun k => X.getD k []) } := by
  unfold fit
  rw [hK]

theorem convertLabels_getD (y : List ℚ) (k : ℕ) (hk : k < y.length) :
    (convertLabels y).getD k 0 =
      if y.getD k 0 = 0 then -1 else y.getD k 0 := by
  unfold convertLabels
  rw [List.getD_eq_getElem?_getD, List.getElem?_map,
    List.getElem?_eq_getElem hk, List.getD_eq_getElem?_getD,
    List.getElem?_eq_getElem hk]
  rfl

theorem getD_mem_of_lt (y : List ℚ) (k : ℕ) (hk : k < y.length) :
    y.getD k 0 ∈ y := by
  rw [List.getD_eq_getElem?_getD, List.getElem?_eq_getElem hk]
  exact List.getElem_mem hk

/-! ### The claims

Concrete evaluations below reduce rational arithmetic in the kernel; the
core arithmetic on `Rat` is sealed against unfolding by default, so it is
unsealed here. -/

unseal Rat.add Rat.sub Rat.mul Rat.inv

set_option maxRecDepth 8000 in
/-- Counterexample to C1: `fit` does *not* normalize arbitrary two-valued
labels — the conversion is only `y[y == 0] = -1`.  Training on
`y = [2, 5]` (two distinct values) stores the raw label `5` in `y_train`,
and `5` is neither `-1` nor `+1`; the smaller value `2` was not mapped to
`-1` either. -/
theorem fit_leaves_arbitrary_labels_cex :
    (fit id (fun _ i => 1 - i) (initModel (cfgWith "linear")) [[1], [-1]]
      [2, 5] 1 (1 / 1000)).map (fun m => m.y_train) = .ok (some [5]) ∧
    ¬((5 : ℚ) = -1 ∨ (5 : ℚ) = 1) := by
  decide

/-- C1 as amended: `fit`'s label conversion rewrites exactly the value `0`
to `-1`.  For caller labels drawn from `{0, 1}` (with `y` at least as long
as `X`) this does normalize: the numerically smaller value `0` maps to
`-1`, and every stored training label is `-1` or `+1`.  Arbitrary other
two-valued label sets are stored unchanged. -/
theorem fit_normalizes_zero_one_labels (ex : ℚ → ℚ) (sel : ℕ → ℕ → ℕ)
    (m : SVMModel) (X : List (List ℚ)) (y : List ℚ) (max_iter : ℕ)
    (tol : ℚ) (hy : ∀ v ∈ y, v = 0 ∨ v = 1) (hn : X.length ≤ y.length)
    (m2 : SVMModel) (hfit : fit ex sel m X y max_iter tol = Except.ok m2)
    (yt : List ℚ) (hyt : m2.y_train = some yt) :
    (∀ v ∈ yt, v = -1 ∨ v = 1) ∧
    (∀ k, k < y.length → y.getD k 0 = 0 →
      (convertLabels y).getD k 0 = -1) := by
  constructor
  · intro v hv
    rcases hK : kernelMatrix ex m.cfg X X with e | K
    · unfold fit at hfit
      rw [hK] at hfit
      cases hfit
    · rw [fit_ok_elim ex sel m X y max_iter tol K hK] at hfit
      have hm2 := Except.ok.inj hfit
      subst hm2
      simp only [Option.some.injEq] at hyt
      subst hyt
      rcases List.mem_map.mp hv with ⟨k, hkmem, hkv⟩
      have hkn : k < X.length :=
        List.mem_range.mp (List.mem_filter.mp hkmem).1
      have hky : k < y.length := lt_of_lt_of_le hkn hn
      rw [convertLabels_getD y k hky] at hkv
      rcases hy (y.getD k 0) (getD_mem_of_lt y k hky) with h0 | h1
      · rw [if_pos h0] at hkv
        exact Or.inl hkv.symm
      · rw [if_neg (by rw [h1]; norm_num), h1] at hkv
        exact Or.inr hkv.symm
  · intro k hk h0
    rw [convertLabels_getD y k hk, if_pos h0]

set_option maxRecDepth 8000 in
/-- Witness for the amended C1 at `y = [0, 1]`. -/
theorem fit_normalizes_zero_one_labels_w :
    (((-1 : ℚ) = -1 ∨ (-1 : ℚ) = 1) ∧ ((1 : ℚ) = -1 ∨ (1 : ℚ) = 1)) ∧
    (convertLabels [0, 1]).getD 0 0 = -1 :=
  have T := fit_normalizes_zero_one_labels id (fun _ i => 1 - i)
    (initModel (cfgWith "linear")) [[1], [-1]] [0, 1] 1 (1 / 1000)
    (by decide) (by decide)
    { cfg := cfgWith "linear", alpha := some [1 / 2, 1 / 2], b := 0,
      X_train := some [[1], [-1]], y_train := some [-1, 1],
      support_vectors := some [[1], [-1]] }
    (by decide) [-1, 1] rfl
  ⟨⟨T.1 (-1) (by decide), T.1 1 (by decide)⟩, T.2 0 (by decide) (by decide)⟩

/-- Counterexample to C2: `fit` performs no input validation at all.  On
two samples of one single class (`y = [1, 1]`, one distinct value) it
trains to completion and returns a model (with an empty support-vector
set) instead of failing with any `InvalidTrainingData` condition. -/
theorem fit_single_class_no_error_cex :
    fit id (fun _ i => 1 - i) (initModel (cfgWith "linear")) [[0], [1]]
      [1, 1] 1000 (1 / 1000) = .ok
        { cfg := cfgWith "linear", alpha := some [], b := 0,
          X_train := some [[0], [1]], y_train := some [],
          support_vectors := some [] } := by
  decide

/-- C2 as amended: `fit` contains no precondition check; the only error it
can ever produce is `unsupportedKernel` (from the kernel-name dispatch),
never `invalidTrainingData`.  (With a single sample the source's
partner-selection retry loop can never pick `j ≠ i` and does not
terminate; that case produces no error condition either.) -/
theorem fit_never_raises_invalid_training_data (ex : ℚ → ℚ)
    (sel : ℕ → ℕ → ℕ) (m : SVMModel) (X : List (List ℚ)) (y : List ℚ)
    (max_iter : ℕ) (tol : ℚ) :
    (∀ e, fit ex sel m X y max_iter tol = Except.error e →
      e = SVMError.unsupportedKernel) ∧
    fit ex sel m X y max_iter tol ≠
      Except.error SVMError.invalidTrainingData := by
  have key : ∀ e, fit ex sel m X y max_iter tol = Except.error e →
      e = SVMError.unsupportedKernel := by
    intro e2 h
    unfold fit at h
    rcases hK : kernelMatrix ex m.cfg X X with e | K
    · rw [hK] at h
      cases h
      exact kernelMatrix_error_eq ex m.cfg X X _ hK
    · rw [hK] at h
      cases h
  exact ⟨key, fun h => by cases key _ h⟩

/-- Witness for the amended C2: the single-class run from the
counterexample indeed does not produce `invalidTrainingData`. -/
theorem fit_never_raises_invalid_training_data_w :
    fit id (fun _ i => 1 - i) (initModel (cfgWith "linear")) [[0], [1]]
      [1, 1] 1000 (1 / 1000) ≠
      Except.error SVMError.invalidTrainingData :=
  (fit_never_raises_invalid_training_data id (fun _ i => 1 - i)
    (initModel (cfgWith "linear")) [[0], [1]] [1, 1] 1000 (1 / 1000)).2

/-- Counterexample to C3: a sub-1e-5 clipped update is skipped and not
counted, but it is *not* a no-op — the source has already written the
clipped value into `alpha[j]` before the threshold test.  Concretely, one
pass over the state `alpha = [199999/200000, 199999/200000], b = 0` (all
multipliers inside `[0, C]`, `C = 1`, `tol = 1e-7`) counts zero changes
yet moves `alpha[1]` to `1`. -/
theorem small_update_skip_mutates_alpha_cex :
    (smoPass 1 (1 / 10000000) [[1, 0], [0, 1]] [1, -1] (fun i => 1 - i) 2
      ([199999 / 200000, 199999 / 200000], 0)).2 = 0 ∧
    (smoPass 1 (1 / 10000000) [[1, 0], [0, 1]] [1, -1] (fun i => 1 - i) 2
      ([199999 / 200000, 199999 / 200000], 0)).1 ≠
      ([199999 / 200000, 199999 / 200000], 0) := by
  decide

/-- C3 as amended: whenever an inner SMO step is not counted as a change
(any of the three skip conditions, including the `|Δ alpha_j| < 1e-5`
one), the bias and every multiplier other than `alpha[j]` are unchanged,
and `alpha[j]` itself moves by strictly less than 1e-5 — but it may move,
since the clipped value was already written back. -/
theorem small_update_skip_frame (C : ℚ) (K : List (List ℚ)) (y : List ℚ)
    (s : SMOState) (Ei : ℚ) (i j : ℕ)
    (h : (smoInner C K y s Ei i j).2 = false) :
    (smoInner C K y s Ei i j).1.2 = s.2 ∧
    (∀ k, k ≠ j → (smoInner C K y s Ei i j).1.1.getD k 0 = s.1.getD k 0) ∧
    |(smoInner C K y s Ei i j).1.1.getD j 0 - s.1.getD j 0| <
      1 / 100000 := by
  simp only [smoInner] at h ⊢
  split_ifs at h ⊢ with h1 h2 h3
  · exact ⟨rfl, fun k _ => rfl, by norm_num⟩
  · exact ⟨rfl, fun k _ => rfl, by norm_num⟩
  · refine ⟨rfl, fun k hk => getD_set_ne _ _ _ _ _ hk, ?_⟩
    rw [getD_set_self]
    split_ifs with hlen
    · exact h3
    · rw [List.getD_eq_getElem?_getD,
        List.getElem?_eq_none (Nat.le_of_not_lt hlen)]
      norm_num

/-- Witness for the amended C3 at the counterexample's inner step. -/
theorem small_update_skip_frame_w :
    (smoInner 1 [[1, 0], [0, 1]] [1, -1]
      ([199999 / 200000, 199999 / 200000], 0) (-1 / 200000) 0 1).1.2 = 0 ∧
    (smoInner 1 [[1, 0], [0, 1]] [1, -1]
      ([199999 / 200000, 199999 / 200000], 0) (-1 / 200000) 0 1).1.1.getD
        0 0 = 199999 / 200000 ∧
    |(smoInner 1 [[1, 0], [0, 1]] [1, -1]
      ([199999 / 200000, 199999 / 200000], 0) (-1 / 200000) 0 1).1.1.getD
        1 0 - 199999 / 200000| < 1 / 100000 :=
  have T := small_update_skip_frame 1 [[1, 0], [0, 1]] [1, -1]
    ([199999 / 200000, 199999 / 200000], 0) (-1 / 200000) 0 1 (by decide)
  ⟨T.1, T.2.1 0 (by decide), T.2.2⟩

/-- C4: throughout the optimization loop every multiplier stays inside
`[0, C]`.  Part one: a single inner step from any state whose multipliers
lie in `[0, C]` (with `±1` labels at the two touched indices) leaves every
multiplier in `[0, C]` — `alpha[j]` because it is clipped into
`[L, H] ⊆ [0, C]`, `alpha[i]` because its unclipped update
`alpha_i_old + y_i·y_j·(alpha_j_old − alpha_j_new)` cannot leave the box.
Part two: the same invariant is preserved by the whole loop, in particular
by `fit`'s run, which starts from all-zero multipliers. -/
theorem multipliers_stay_in_box (C tol : ℚ) (K : List (List ℚ))
    (y : List ℚ) (hC : 0 ≤ C) :
    (∀ (s : SMOState) (Ei : ℚ) (i j : ℕ),
      (y.getD i 0 = 1 ∨ y.getD i 0 = -1) →
      (y.getD j 0 = 1 ∨ y.getD j 0 = -1) →
      (∀ k, 0 ≤ s.1.getD k 0 ∧ s.1.getD k 0 ≤ C) →
      ∀ k, 0 ≤ (smoInner C K y s Ei i j).1.1.getD k 0 ∧
        (smoInner C K y s Ei i j).1.1.getD k 0 ≤ C) ∧
    (∀ (sel : ℕ → ℕ → ℕ) (n fuel p : ℕ) (s : SMOState),
      (∀ q i, i < n → sel q i < n) →
      (∀ k, k < n → y.getD k 0 = 1 ∨ y.getD k 0 = -1) →
      (∀ k, 0 ≤ s.1.getD k 0 ∧ s.1.getD k 0 ≤ C) →
      ∀ k, 0 ≤ (smoLoop C tol K y sel n fuel p s).1.getD k 0 ∧
        (smoLoop C tol K y sel n fuel p s).1.getD k 0 ≤ C) :=
  ⟨fun s Ei i j hyi hyj hs =>
    smoInner_alpha_mem C K y s Ei i j hC hyi hyj hs,
   fun sel n fuel p s hsel hy hs =>
    smoLoop_alpha_mem C tol K y sel n fuel p s hC hsel hy hs⟩

/-- Witness for C4: one concrete loop run lands `alpha[0] = 1/2` inside
`[0, 1]`. -/
theorem multipliers_stay_in_box_w :
    0 ≤ (smoLoop 1 (1 / 1000) [[1, -1], [-1, 1]] [1, -1]
      (fun _ i => 1 - i) 2 1 0 (List.replicate 2 0, 0)).1.getD 0 0 ∧
    (smoLoop 1 (1 / 1000) [[1, -1], [-1, 1]] [1, -1]
      (fun _ i => 1 - i) 2 1 0 (List.replicate 2 0, 0)).1.getD 0 0 ≤ 1 :=
  (multipliers_stay_in_box 1 (1 / 1000) [[1, -1], [-1, 1]] [1, -1]
    (by norm_num)).2 (fun _ i => 1 - i) 2 1 0 (List.replicate 2 0, 0)
    (fun q i hi => by show 1 - i < 2; omega) (by decide)
    (by intro k; dsimp only; rw [getD_replicate]; split_ifs <;> norm_num) 0

/-- Counterexample to C5: calling `predict` on a freshly constructed
(default, linear-kernel) model does fail, but with the embedded
`AttributeError` on the `None` support-vector field — the code implements
no dedicated `ModelNotFitted` condition and never raises one. -/
theorem predict_unfit_error_cex :
    predict id (initModel (cfgWith "linear")) [[1]] =
      .error .noneAttribute ∧
    SVMError.noneAttribute ≠ SVMError.modelNotFitted := by
  decide

/-- C5 as amended: on a freshly constructed model, `decision_function` and
`predict` always fail — with the `None`-field error for a supported
kernel name, or with `unsupportedKernel` for an unrecognized one — never
succeeding, but also never with a dedicated `ModelNotFitted` condition. -/
theorem predict_unfit_always_fails (ex : ℚ → ℚ) (cfg : SVMConfig)
    (X : List (List ℚ)) :
    (decision_function ex (initModel cfg) X = .error .noneAttribute ∨
      decision_function ex (initModel cfg) X = .error .unsupportedKernel) ∧
    (predict ex (initModel cfg) X = .error .noneAttribute ∨
      predict ex (initModel cfg) X = .error .unsupportedKernel) := by
  have hd : decision_function ex (initModel cfg) X =
        .error .noneAttribute ∨
      decision_function ex (initModel cfg) X =
        .error .unsupportedKernel := by
    unfold decision_function initModel kernelMatrixO
    dsimp only
    split_ifs <;> simp
  refine ⟨hd, ?_⟩
  rcases hd with h | h
  · left
    unfold predict
    rw [h]
  · right
    unfold predict
    rw [h]

/-- C6: any kernel name outside `{linear, poly, rbf}` makes the kernel
evaluation — and hence `fit` on a model so configured — fail with the
`UnsupportedKernel` condition (the source's
`raise ValueError("Unknown kernel type")`), with no fallback to a default
kernel. -/
theorem unknown_kernel_raises (ex : ℚ → ℚ) (sel : ℕ → ℕ → ℕ)
    (cfg : SVMConfig) (X1 X2 X : List (List ℚ)) (y : List ℚ)
    (max_iter : ℕ) (tol : ℚ) (h1 : cfg.kernel ≠ "linear")
    (h2 : cfg.kernel ≠ "poly") (h3 : cfg.kernel ≠ "rbf") :
    kernelMatrix ex cfg X1 X2 = .error .unsupportedKernel ∧
    fit ex sel (initModel cfg) X y max_iter tol =
      .error .unsupportedKernel := by
  have key : ∀ A B : List (List ℚ),
      kernelMatrix ex cfg A B = .error .unsupportedKernel := by
    intro A B
    unfold kernelMatrix kernelMatrixO
    rw [if_neg h1, if_neg h2, if_neg h3]
  refine ⟨key X1 X2, ?_⟩
  unfold fit
  rw [show kernelMatrix ex (initModel cfg).cfg X X =
    .error .unsupportedKernel from key X X]

/-- Witness for C6 with the kernel name "unknown". -/
theorem unknown_kernel_raises_w :
    kernelMatrix id (cfgWith "unknown") [[1]] [[1]] =
      .error .unsupportedKernel ∧
    fit id (fun _ i => 1 - i) (initModel (cfgWith "unknown")) [[1]] [1] 5
      1 = .error .unsupportedKernel :=
  unknown_kernel_raises id (fun _ i => 1 - i) (cfgWith "unknown")
    [[1]] [[1]] [[1]] [1] 5 1 (by decide) (by decide) (by decide)

/-- Counterexample to C7: after `fit`, the *full* training matrix is still
stored in the model's `X_train` field — only `support_vectors`, `alpha`
and `y_train` are filtered.  Here a run retains zero support vectors, yet
`X_train` still holds both training rows: per-sample training state is
not all dropped. -/
theorem fit_retains_full_X_train_cex :
    (fit id (fun _ i => 1 - i) (initModel (cfgWith "linear")) [[0], [1]]
      [1, 1] 2 (1 / 1000)).map (fun m => (m.X_train, m.support_vectors)) =
      .ok (some [[0], [1]], some []) ∧
    (some [[0], [1]] : Option (List (List ℚ))) ≠ some [] := by
  decide

/-- C7 as amended: after a successful `fit`, the `support_vectors`,
`alpha` and `y_train` fields retain exactly the samples at the indices
whose final multiplier exceeds 1e-5 (rows, multipliers and labels
respectively); every retained multiplier lies in `(1e-5, C]` and every
discarded one was `≤ 1e-5` — but the `X_train` field keeps the full,
unfiltered training matrix (it is simply unused by prediction). -/
theorem fit_support_vector_filter (ex : ℚ → ℚ) (sel : ℕ → ℕ → ℕ)
    (m : SVMModel) (X : List (List ℚ)) (y : List ℚ) (max_iter : ℕ)
    (tol : ℚ) (K : List (List ℚ)) (hC : 0 ≤ m.cfg.C)
    (hsel : ∀ q i, i < X.length → sel q i < X.length)
    (hy : ∀ k, k < X.length → (convertLabels y).getD k 0 = 1 ∨
      (convertLabels y).getD k 0 = -1)
    (hK : kernelMatrix ex m.cfg X X = .ok K)
    (m2 : SVMModel) (hfit : fit ex sel m X y max_iter tol = Except.ok m2) :
    m2.X_train = some X ∧
    m2.alpha = some ((svIndices X.length
      (fitState m.cfg sel K (convertLabels y) X.length max_iter
        tol).1).map fun k =>
      (fitState m.cfg sel K (convertLabels y) X.length max_iter
        tol).1.getD k 0) ∧
    m2.y_train = some ((svIndices X.length
      (fitState m.cfg sel K (convertLabels y) X.length max_iter
        tol).1).map fun k => (convertLabels y).getD k 0) ∧
    (∀ l, m2.alpha = some l → ∀ a ∈ l, 1 / 100000 < a ∧ a ≤ m.cfg.C) ∧
    (∀ k, k < X.length →
      k ∉ svIndices X.length
        (fitState m.cfg sel K (convertLabels y) X.length max_iter tol).1 →
      (fitState m.cfg sel K (convertLabels y) X.length max_iter
        tol).1.getD k 0 ≤ 1 / 100000) ∧
    m2.support_vectors = some ((svIndices X.length
      (fitState m.cfg sel K (convertLabels y) X.length max_iter
        tol).1).map fun k => X.getD k []) := by
  rw [fit_ok_elim ex sel m X y max_iter tol K hK] at hfit
  have hm2 := Except.ok.inj hfit
  subst hm2
  refine ⟨rfl, rfl, rfl, ?_, ?_, rfl⟩
  · intro l hl a ha
    simp only [Option.some.injEq] at hl
    subst hl
    rcases List.mem_map.mp ha with ⟨k, hkmem, hkv⟩
    have hfil := List.mem_filter.mp hkmem
    constructor
    · rw [← hkv]
      simpa using hfil.2
    · rw [← hkv]
      have hs0 : ∀ k2, 0 ≤ (List.replicate X.length (0 : ℚ), (0 : ℚ)).1.getD
          k2 0 ∧ (List.replicate X.length (0 : ℚ), (0 : ℚ)).1.getD k2 0 ≤
          m.cfg.C := by
        intro k2
        dsimp only
        rw [getD_replicate]
        split_ifs <;> exact ⟨le_refl 0, hC⟩
      exact (smoLoop_alpha_mem m.cfg.C tol K (convertLabels y) sel
        X.length max_iter 0 _ hC hsel hy hs0 k).2
  · intro k hk hnot
    by_contra hgt
    push_neg at hgt
    exact hnot (List.mem_filter.mpr
      ⟨List.mem_range.mpr hk, by simpa using hgt⟩)

set_option maxRecDepth 8000 in
/-- Witness for the amended C7 on a two-support-vector run. -/
theorem fit_support_vector_filter_w :
    (some [[1], [-1]] : Option (List (List ℚ))) = some [[1], [-1]] ∧
    (some [-1, 1] : Option (List ℚ)) = some ((svIndices 2
      (fitState (cfgWith "linear") (fun _ i => 1 - i) [[1, -1], [-1, 1]]
        (convertLabels [-1, 1]) 2 1 (1 / 1000)).1).map fun k =>
      (convertLabels [-1, 1]).getD k 0) ∧
    (1 / 100000 < (1 / 2 : ℚ) ∧ (1 / 2 : ℚ) ≤ (cfgWith "linear").C) :=
  have T := fit_support_vector_filter id (fun _ i => 1 - i)
    (initModel (cfgWith "linear")) [[1], [-1]] [-1, 1] 1 (1 / 1000)
    [[1, -1], [-1, 1]] (by norm_num [initModel, cfgWith])
    (fun q i hi => by show 1 - i < 2; omega) (by decide)
    (by decide)
    { cfg := cfgWith "linear", alpha := some [1 / 2, 1 / 2], b := 0,
      X_train := some [[1], [-1]], y_train := some [-1, 1],
      support_vectors := some [[1], [-1]] }
    (by decide)
  ⟨T.1, T.2.2.1, T.2.2.2.1 [1 / 2, 1 / 2] rfl (1 / 2) (by decide)⟩

/-- C8: the optimization loop makes at most `max_iter` outer passes
(`passCount` mirrors `smoLoop`'s recursion), and as soon as a whole pass
counts zero changes the loop stops with that pass's state.  The loop is a
total function of the injected partner selector, so `fit` terminates for
every input under the spec's random-source abstraction. -/
theorem smo_outer_loop_bound (C tol : ℚ) (K : List (List ℚ))
    (y : List ℚ) (sel : ℕ → ℕ → ℕ) (n : ℕ) :
    (∀ fuel p s, passCount C tol K y sel n fuel p s ≤ fuel) ∧
    (∀ fuel p s, (smoPass C tol K y (sel p) n s).2 = 0 →
      smoLoop C tol K y sel n (fuel + 1) p s =
        (smoPass C tol K y (sel p) n s).1) := by
  constructor
  · intro fuel
    induction fuel with
    | zero => intro p s; simp [passCount]
    | succ fm ih =>
        intro p s
        simp only [passCount]
        split_ifs with h
        · omega
        · have := ih (p + 1) (smoPass C tol K y (sel p) n s).1
          omega
  · intro fuel p s h
    simp only [smoLoop]
    rw [if_pos h]

/-- Witness for C8 at a concrete zero-change pass. -/
theorem smo_outer_loop_bound_w :
    passCount 1 (1 / 1000) [[0, 0], [0, 1]] [1, 1] (fun _ i => 1 - i) 2 3
      0 (List.replicate 2 0, 0) ≤ 3 ∧
    smoLoop 1 (1 / 1000) [[0, 0], [0, 1]] [1, 1] (fun _ i => 1 - i) 2 4 0
      (List.replicate 2 0, 0) =
      (smoPass 1 (1 / 1000) [[0, 0], [0, 1]] [1, 1]
        ((fun _ i => 1 - i) 0) 2 (List.replicate 2 0, 0)).1 :=
  ⟨(smo_outer_loop_bound 1 (1 / 1000) [[0, 0], [0, 1]] [1, 1]
      (fun _ i => 1 - i) 2).1 3 0 (List.replicate 2 0, 0),
   (smo_outer_loop_bound 1 (1 / 1000) [[0, 0], [0, 1]] [1, 1]
      (fun _ i => 1 - i) 2).2 3 0 (List.replicate 2 0, 0) (by decide)⟩

/-- C9: for every kernel configuration the evaluator accepts and every
matrix `X`, the self Gram matrix `K = _kernel(X, X)` is symmetric:
`K[i,j] = K[j,i]` for all indices (holds exactly over ℚ, for an arbitrary
embedded exponential in the rbf case). -/
theorem kernel_matrix_self_symm (ex : ℚ → ℚ) (cfg : SVMConfig)
    (X K : List (List ℚ)) (hK : kernelMatrix ex cfg X X = .ok K)
    (i j : ℕ) :
    (K.getD i []).getD j 0 = (K.getD j []).getD i 0 := by
  unfold kernelMatrix kernelMatrixO at hK
  split_ifs at hK
  · simp only [Except.ok.injEq] at hK
    subst hK
    exact map_map_getD_symm _ (fun a b => dot_comm a b) X i j
  · simp only [Except.ok.injEq] at hK
    subst hK
    exact map_map_getD_symm _ (fun a b => by rw [dot_comm]) X i j
  · simp only [Except.ok.injEq] at hK
    subst hK
    refine map_map_getD_symm _ (fun a b => ?_) X i j
    rw [dot_comm a b]
    ring_nf

/-- Witness for C9: a concrete rbf Gram matrix and its symmetry. -/
theorem kernel_matrix_self_symm_w :
    kernelMatrix id (cfgWith "rbf") [[1], [2]] [[1], [2]] =
      .ok [[0, -1], [-1, 0]] ∧
    (([[0, -1], [-1, 0]] : List (List ℚ)).getD 0 []).getD 1 0 =
      (([[0, -1], [-1, 0]] : List (List ℚ)).getD 1 []).getD 0 0 :=
  ⟨by decide,
   kernel_matrix_self_symm id (cfgWith "rbf") [[1], [2]]
     [[0, -1], [-1, 0]] (by decide) 0 1⟩

/-- C10: the caller's label array is untouched by `fit`'s label rewrite —
`y = y.copy()` allocates a fresh array and the in-place `y[y == 0] = -1`
hits only the copy, while the local name `y` ends up holding the
converted labels. -/
theorem fit_label_copy_frame (h : Heap) (yRef : ℕ)
    (hr : yRef < h.length) :
    readArr (fitLabelIntro h yRef).1 yRef = readArr h yRef ∧
    readArr (fitLabelIntro h yRef).1 (fitLabelIntro h yRef).2 =
      convertLabels (readArr h yRef) := by
  unfold fitLabelIntro allocArr writeArr readArr
  dsimp only
  constructor
  · rw [getD_set_ne _ _ _ _ _ (Nat.ne_of_lt hr)]
    rw [List.getD_eq_getElem?_getD, List.getElem?_append_left hr,
      ← List.getD_eq_getElem?_getD]
  · rw [getD_set_self]
    have hlen : h.length < (h ++ [h.getD yRef []]).length := by
      simp
    rw [if_pos hlen]
    congr 1
    rw [List.getD_eq_getElem?_getD, List.getElem?_concat_length]
    rfl

/-- Witness for C10 at a concrete one-array heap. -/
theorem fit_label_copy_frame_w :
    readArr (fitLabelIntro [[0, 2, 5]] 0).1 0 = readArr [[0, 2, 5]] 0 ∧
    readArr (fitLabelIntro [[0, 2, 5]] 0).1 (fitLabelIntro [[0, 2, 5]] 0).2
      = convertLabels (readArr [[0, 2, 5]] 0) :=
  fit_label_copy_frame [[0, 2, 5]] 0 (by decide)

end CustomSVM
